import Mathlib

/-!
Shallow embedding of the KittyVoiceController core
(`summarizer.py`, `controller.py`, `kitty.py`, `config.py`).

Text is modelled as `List Char`; Python string primitives (`lower`,
`strip`, `split`, substring search) are given explicit executable
definitions whose semantics mirror CPython's on the inputs the program
handles.  Regular-expression searches in the source use only literal
patterns plus a handful of simple constructs (`\?\s*$` with MULTILINE,
`Verb .+\.`, `Verb .+?\.`, `\d+\s+keyword`, the filename token pattern);
each is translated into an equivalent executable string predicate,
documented at its definition.
-/

abbrev Str := List Char

/-- Coerce a Lean string literal into the `List Char` text model. -/
def chars (s : String) : Str := s.toList

namespace Py

/-- Python `str.lower()` (per-character lowering). -/
def lower (s : Str) : Str := s.map Char.toLower

/-- Python `str.lstrip()`. -/
def lstrip (s : Str) : Str := s.dropWhile Char.isWhitespace

/-- Python `str.rstrip()`. -/
def rstrip (s : Str) : Str := ((s.reverse).dropWhile Char.isWhitespace).reverse

/-- Python `str.strip()`. -/
def strip (s : Str) : Str := rstrip (lstrip s)

/-- Python `str.split("\n")`: always returns a non-empty list. -/
def splitNl : Str → List Str
  | [] => [[]]
  | c :: cs =>
      if c = '\n' then [] :: splitNl cs
      else
        match splitNl cs with
        | [] => [[c]]
        | h :: t => (c :: h) :: t

/-- Maximal runs of characters satisfying `p` (fuel-bounded recursion:
each step consumes at least one character, so any fuel above the input
length computes the same result — see `tokensByFuel_irrel`). -/
def tokensByFuel (p : Char → Bool) : Nat → Str → List Str
  | 0, _ => []
  | _ + 1, [] => []
  | fuel + 1, c :: cs =>
      if p c then (c :: cs.takeWhile p) :: tokensByFuel p fuel (cs.dropWhile p)
      else tokensByFuel p fuel cs

/-- Maximal runs of characters satisfying `p` (in order); characters not
satisfying `p` act as separators and are discarded. -/
def tokensBy (p : Char → Bool) (s : Str) : List Str :=
  tokensByFuel p (s.length + 1) s

/-- Python `str.split()` (split on whitespace runs, empties discarded). -/
def splitWs (s : Str) : List Str := tokensBy (fun c => !c.isWhitespace) s

/-- Python `sep.join(l)`. -/
def joinWith (sep : Str) : List Str → Str
  | [] => []
  | [w] => w
  | w :: ws => w ++ sep ++ joinWith sep ws

/-- Python `re.sub(r"\s+", " ", s)`: collapse each maximal whitespace run
to a single space (fuel-bounded; each step consumes at least one
character). -/
def collapseWsFuel : Nat → Str → Str
  | 0, _ => []
  | _ + 1, [] => []
  | fuel + 1, c :: cs =>
      if c.isWhitespace then ' ' :: collapseWsFuel fuel (cs.dropWhile Char.isWhitespace)
      else c :: collapseWsFuel fuel cs

def collapseWs (s : Str) : Str := collapseWsFuel (s.length + 1) s

/-- Python `hay.find(needle)` restricted to success: index of the first
occurrence of `needle` as a contiguous sublist, `none` if absent. -/
def findSub (needle : Str) : Str → Option Nat
  | [] => if needle.isPrefixOf ([] : Str) then some 0 else none
  | c :: cs =>
      if needle.isPrefixOf (c :: cs) then some 0
      else (findSub needle cs).map (· + 1)

/-- Python `needle in hay` (contiguous substring containment). -/
def containsSub (needle hay : Str) : Bool := (findSub needle hay).isSome

end Py

/-! ## `config.py`: `SummaryConfig` (the fields the core uses) -/

structure SummaryConfig where
  max_spoken_length : Nat
  strategy : Str
  announce_errors : Bool
  announce_questions : Bool
  announce_completion : Bool
deriving DecidableEq

/-- Source defaults: `max_spoken_length=150`, `strategy="smart"`, all
announce flags true. -/
def SummaryConfig.default : SummaryConfig :=
  ⟨150, chars "smart", true, true, true⟩

/-! ## `summarizer.py` -/

namespace Summarizer

/-- The `Summary` dataclass. -/
structure Summary where
  text : Str
  has_error : Bool
  has_question : Bool
  is_complete : Bool
  raw_length : Nat
deriving DecidableEq

/-- `re.search(pat, text, re.IGNORECASE)` for a literal pattern `pat`:
case-insensitive substring occurrence. -/
def searchCI (pat text : Str) : Bool := Py.containsSub (Py.lower pat) (Py.lower text)

/-- `ERROR_PATTERNS` (all literal regexes). -/
def ERROR_PATTERNS : List Str :=
  [chars "error:", chars "Error:", chars "ERROR",
   chars "failed", chars "Failed", chars "FAILED",
   chars "exception", chars "Exception",
   chars "traceback", chars "Traceback",
   chars "panic:", chars "PANIC",
   chars "fatal:", chars "Fatal:"]

/-- `_has_error`: any error pattern anywhere, case-insensitively. -/
def has_error (text : Str) : Bool := ERROR_PATTERNS.any (fun p => searchCI p text)

/-- Regex `\?\s*$` applied to a single line (no `\n` inside): a `?`
followed only by whitespace up to the end of the line. -/
def q_suffix_line (l : Str) : Bool := (chars "?").isSuffixOf (Py.rstrip l)

/-- Regex `\?\s*$` with `re.MULTILINE` on a whole text: some line matches. -/
def q_suffix_multiline (text : Str) : Bool := (Py.splitNl text).any q_suffix_line

/-- Regex `Enter .* to continue` (case-insensitive) on one line: an
occurrence of `"enter "` followed, within the same line, by
`" to continue"`.  Taking the first occurrence of `"enter "` is
complete: any later witnessing occurrence also lies after the first. -/
def enter_continue_line (l : Str) : Bool :=
  match Py.findSub (chars "enter ") (Py.lower l) with
  | some i => Py.containsSub (chars " to continue") ((Py.lower l).drop (i + 6))
  | none => false

/-- Regex `Enter .* to continue` on a whole text: `.` does not match
newlines, so the match is confined to one line. -/
def enter_continue (text : Str) : Bool := (Py.splitNl text).any enter_continue_line

/-- `QUESTION_PATTERNS` disjunction as used by `_has_question`
(`re.IGNORECASE | re.MULTILINE`). -/
def has_question (text : Str) : Bool :=
  q_suffix_multiline text ||
  searchCI (chars "Do you want") text ||
  searchCI (chars "Would you like") text ||
  searchCI (chars "Should I") text ||
  searchCI (chars "Shall I") text ||
  searchCI (chars "Please confirm") text ||
  enter_continue text ||
  searchCI (chars "[y/n]") text ||
  searchCI (chars "[Y/n]") text ||
  searchCI (chars "[yes/no]") text

/-- `QUESTION_PATTERNS` disjunction applied to a single line with only
`re.IGNORECASE` (as in `_extract_question`); without MULTILINE, `$` is
end-of-string, and the scanned line contains no newline. -/
def question_patterns_line (l : Str) : Bool :=
  q_suffix_line l ||
  searchCI (chars "Do you want") l ||
  searchCI (chars "Would you like") l ||
  searchCI (chars "Should I") l ||
  searchCI (chars "Shall I") l ||
  searchCI (chars "Please confirm") l ||
  enter_continue_line l ||
  searchCI (chars "[y/n]") l ||
  searchCI (chars "[Y/n]") l ||
  searchCI (chars "[yes/no]") l

/-- Case-insensitive `endswith`. -/
def endsCI (suffix s : Str) : Bool := (Py.lower suffix).isSuffixOf (Py.lower s)

/-- Regex `V.+\.` on one line for a literal prefix `V` (such as
`"Created "`), case-insensitively: an occurrence of `V`, at least one
further (non-newline) character, then a literal `.` later in the same
line.  First occurrence of `V` is complete: a dot qualifying for a later
occurrence qualifies for the first. -/
def verb_dot_line (v l : Str) : Bool :=
  match Py.findSub (Py.lower v) (Py.lower l) with
  | some i => ((Py.lower l).drop (i + v.length + 1)).contains '.'
  | none => false

/-- Regex `V.+\.` searched in a whole text (`.` never matches `\n`). -/
def verb_dot (v text : Str) : Bool := (Py.splitNl text).any (verb_dot_line v)

/-- `_is_complete`: `COMPLETION_PATTERNS` searched (case-insensitively)
in the last (up to) three lines of the stripped text, joined with `\n`.
`Done\.?$` becomes ends-with `"done"` or `"done."` (no MULTILINE, and the
joined text has no trailing newline); `> $` becomes ends-with `"> "`. -/
def is_complete (text : Str) : Bool :=
  let lines := Py.splitNl (Py.strip text)
  if lines = [] then false
  else
    let last_lines := Py.joinWith (chars "\n") (lines.drop (lines.length - 3))
    (endsCI (chars "done") last_lines || endsCI (chars "done.") last_lines) ||
    (endsCI (chars "complete") last_lines || endsCI (chars "complete.") last_lines) ||
    (endsCI (chars "finished") last_lines || endsCI (chars "finished.") last_lines) ||
    searchCI (chars "Successfully") last_lines ||
    verb_dot (chars "Created ") last_lines ||
    verb_dot (chars "Updated ") last_lines ||
    verb_dot (chars "Fixed ") last_lines ||
    (chars "> ").isSuffixOf last_lines

/-- `_truncate_to_words`. -/
def truncate_to_words (text : Str) (max_words : Nat) : Str :=
  let words := Py.splitWs text
  if words.length ≤ max_words then text
  else Py.joinWith (chars " ") (words.take max_words) ++ chars "..."

/-- The list `[l.strip() for l in text.strip().split("\n") if l.strip()]`. -/
def non_blank_lines (text : Str) : List Str :=
  ((Py.splitNl (Py.strip text)).map Py.strip).filter (· ≠ [])

/-- `_first_last_summary`. -/
def first_last_summary (cfg : SummaryConfig) (text : Str) : Str :=
  let lines := non_blank_lines text
  if lines.length ≤ 4 then Py.joinWith (chars " ") lines
  else
    let first_lines := lines.take 2
    let last_lines := lines.drop (lines.length - 2)
    let middle_count := lines.length - 4
    let summary :=
      Py.joinWith (chars " ") first_lines ++
      chars " ... " ++ (toString middle_count).toList ++ chars " more lines ... " ++
      Py.joinWith (chars " ") last_lines
    truncate_to_words summary cfg.max_spoken_length

/-- `_extract_error_message`: first pattern (in list order) that occurs,
taken at its first (case-insensitive) occurrence; `re.search(p + ".*")`
captures from there to the end of that line; whitespace runs collapsed,
stripped, capped at 100 characters with an appended ellipsis. -/
def extract_error_message (text : Str) : Option Str :=
  ERROR_PATTERNS.findSome? fun p =>
    match Py.findSub (Py.lower p) (Py.lower text) with
    | some i =>
        let line := (text.drop i).takeWhile (fun c => c ≠ '\n')
        let line2 := Py.strip (Py.collapseWs line)
        some (if 100 < line2.length then line2.take 100 ++ chars "..." else line2)
    | none => none

/-- `_extract_question`: scan the last (up to) 10 lines of the stripped
text in reverse; the first stripped line ending in `?` or matching a
question pattern is returned, capped at 150 characters. -/
def extract_question (text : Str) : Option Str :=
  let lines := Py.splitNl (Py.strip text)
  ((lines.drop (lines.length - 10)).reverse).findSome? fun line =>
    let l := Py.strip line
    if (chars "?").isSuffixOf l || question_patterns_line l then
      some (if 150 < l.length then l.take 150 else l)
    else none

/-- One step of `re.findall(r"(V.+?\.)", text, re.IGNORECASE)` scanning
for a literal verb prefix `V`: at the next (case-insensitive) occurrence
of `V`, the lazy `.+?` takes the fewest (≥ 1) non-newline characters up
to a literal dot; on success the matched slice (original casing) is
emitted and scanning resumes after the dot; if no dot completes the
match on that line, scanning resumes one character after the failed
occurrence.  Fuel bounds the recursion; `s.length + 1` always suffices. -/
def findall_action_go (v : Str) : Nat → Str → List Str
  | 0, _ => []
  | fuel + 1, s =>
      match Py.findSub (Py.lower v) (Py.lower s) with
      | none => []
      | some i =>
          let after := s.drop (i + v.length)
          let line := after.takeWhile (fun c => c ≠ '\n')
          match (line.drop 1).findIdx? (· = '.') with
          | some k =>
              (s.drop i).take (v.length + k + 2) ::
                findall_action_go v fuel (s.drop (i + v.length + k + 2))
          | none => findall_action_go v fuel (s.drop (i + 1))

def findall_action (v s : Str) : List Str := findall_action_go v (s.length + 1) s

/-- The eight action patterns of `_extract_actions`, in source order. -/
def ACTION_VERBS : List Str :=
  [chars "Created ", chars "Updated ", chars "Added ", chars "Removed ",
   chars "Fixed ", chars "Installed ", chars "Running ", chars "Building "]

/-- `_extract_actions`: for each pattern in order, all its findall
matches, concatenated. -/
def extract_actions (text : Str) : List Str :=
  (ACTION_VERBS.map (fun v => findall_action v text)).flatten

/-- Characters of the `FILE_PATTERN` token class `[a-zA-Z0-9_\-./]`. -/
def file_char (c : Char) : Bool :=
  c.isAlphanum || c = '_' || c = '-' || c = '.' || c = '/'

/-- The captured group of `FILE_PATTERN` within one maximal run of token
characters: backtracking makes `[a-zA-Z0-9_\-./]+` keep the longest
prefix that is followed by a `.` with an alphanumeric character after
it; `[a-zA-Z0-9]+` then takes the maximal alphanumeric run.  (The
optional leading verb group captures nothing and cannot change the
captured token.)  At most one capture per run: the greedy choice of the
last eligible dot leaves no eligible dot in the remainder. -/
def capture_file (r : Str) : Option Str :=
  match ((List.range r.length).filter fun d =>
      decide (1 ≤ d) && decide (r.getD d ' ' = '.') && (r.getD (d + 1) ' ').isAlphanum).getLast? with
  | some d => some (r.take d ++ '.' :: ((r.drop (d + 1)).takeWhile Char.isAlphanum))
  | none => none

/-- The deduplication loop of `_extract_files`: keep first occurrences,
drop names starting with a dot. -/
def dedupe (seen : List Str) : List Str → List Str
  | [] => []
  | f :: fs =>
      if !seen.contains f && !(chars ".").isPrefixOf f then f :: dedupe (f :: seen) fs
      else dedupe seen fs

/-- `_extract_files`. -/
def extract_files (text : Str) : List Str :=
  dedupe [] ((Py.tokensBy file_char text).filterMap capture_file)

/-- The stems of `files?|changes?|errors?|warnings?|tests?|passed|failed`:
the alternation matches at a position exactly when one of these stems is
a (case-insensitive) prefix there (the optional `s` only lengthens the
match). -/
def COUNT_KEYWORDS : List Str :=
  [chars "file", chars "change", chars "error", chars "warning",
   chars "test", chars "passed", chars "failed"]

def count_keyword (s : Str) : Bool := COUNT_KEYWORDS.any (fun k => k.isPrefixOf (Py.lower s))

/-- `re.findall(COUNT_PATTERN, text, re.IGNORECASE)`: the single capture
group is the digit run, so findall yields the digit runs (as strings)
that are immediately followed by at least one whitespace character and a
count keyword.  A maximal digit run either matches as a whole or not at
all (backtracking inside it cannot make the following `\s` appear), and
the consumed whitespace-plus-keyword contains no digit, so scanning may
resume right after the digit run. -/
def count_matches_fuel : Nat → Str → List Str
  | 0, _ => []
  | _ + 1, [] => []
  | fuel + 1, c :: cs =>
      if c.isDigit then
        let ds := c :: cs.takeWhile Char.isDigit
        let rest := cs.dropWhile Char.isDigit
        let ws := rest.takeWhile Char.isWhitespace
        let rest2 := rest.dropWhile Char.isWhitespace
        if ws ≠ [] && count_keyword rest2 then ds :: count_matches_fuel fuel rest
        else count_matches_fuel fuel rest
      else count_matches_fuel fuel cs

def count_matches (s : Str) : List Str := count_matches_fuel (s.length + 1) s

/-- `_extract_counts`: `matches[:3]` — each element is the bare digit
group (the `isinstance(m, tuple)` branch is dead since the pattern has a
single group). -/
def extract_counts (text : Str) : List Str := (count_matches text).take 3

/-- The fragment list built by `_smart_summary` before its final length
test: status fragment (error > question > complete, with the extracted
error or question line), up to 3 actions, the file fragment, up to 2
counts. -/
def smart_parts (text : Str) (he hq ic : Bool) : List Str :=
  let parts0 : List Str :=
    if he then
      chars "Error encountered." ::
        (match extract_error_message text with
         | some m => [m]
         | none => [])
    else if hq then
      chars "Question from Claude:" ::
        (match extract_question text with
         | some q => [q]
         | none => [])
    else if ic then [chars "Complete."]
    else []
  let parts1 := parts0 ++ (extract_actions text).take 3
  let files := extract_files text
  let parts2 := parts1 ++
    (if files.length = 0 then []
     else if files.length = 1 then [chars "Modified " ++ files.headD [] ++ chars "."]
     else if files.length ≤ 3 then
       [chars "Modified " ++ Py.joinWith (chars ", ") files ++ chars "."]
     else [chars "Modified " ++ (toString files.length).toList ++ chars " files."])
  parts2 ++ (extract_counts text).take 2

/-- `_smart_summary`: fewer than 2 fragments falls back to
`_first_last_summary`, else the fragments are space-joined and
word-truncated. -/
def smart_summary (cfg : SummaryConfig) (text : Str)
    (he hq ic : Bool) : Str :=
  if (smart_parts text he hq ic).length ≤ 1 then first_last_summary cfg text
  else truncate_to_words (Py.joinWith (chars " ") (smart_parts text he hq ic))
    cfg.max_spoken_length

/-- `OutputSummarizer.summarize`. -/
def summarize (cfg : SummaryConfig) (text : Str) : Summary :=
  if text = [] then
    { text := chars "No output"
      has_error := false
      has_question := false
      is_complete := true
      raw_length := 0 }
  else
    let he := has_error text
    let hq := has_question text
    let ic := is_complete text
    let summary_text :=
      if cfg.strategy = chars "full" then truncate_to_words text cfg.max_spoken_length
      else if cfg.strategy = chars "first_last" then first_last_summary cfg text
      else smart_summary cfg text he hq ic
    { text := summary_text
      has_error := he
      has_question := hq
      is_complete := ic
      raw_length := text.length }

end Summarizer

/-! ## `kitty.py` -/

namespace Kitty

/-- The classification part of `KittyWindow.is_busy`, as a function of
the text returned by `get_text()`: BUSY unless the stripped last line
ends with `>` or `$`.  (`text.strip().split("\n")` is never empty, so
the guard's `False` branch is dead but kept.) -/
def is_busy_on (text : Str) : Bool :=
  let lines := Py.splitNl (Py.strip text)
  if lines = [] then false
  else
    let last_line := Py.strip (lines.getLastD [])
    !((chars ">").isSuffixOf last_line || (chars "$").isSuffixOf last_line)

end Kitty

/-! ## `controller.py` -/

namespace Controller

/-- `ParsedCommand`. -/
structure ParsedCommand where
  target : Option Str
  command : Str
  is_global : Bool
deriving DecidableEq

/-- The keys of `GLOBAL_COMMANDS`, in insertion (= iteration) order. -/
def GLOBAL_COMMANDS : List Str :=
  [chars "status", chars "mute", chars "unmute", chars "louder",
   chars "softer", chars "quieter", chars "shut down", chars "shutdown",
   chars "stop all", chars "help"]

/-- The fields of `config.ProjectConfig` that routing uses. -/
structure ProjectConfig where
  name : Str
  voice_alias : List Str
deriving DecidableEq

/-- `ProjectConfig.get_all_names`. -/
def get_all_names (p : ProjectConfig) : List Str :=
  Py.lower p.name :: p.voice_alias.map Py.lower

/-- `Config.find_project_by_voice` over the project list (dict values in
insertion order). -/
def find_project_by_voice (projects : List ProjectConfig) (spoken_name : Str) :
    Option ProjectConfig :=
  let spoken_lower := Py.strip (Py.lower spoken_name)
  projects.find? (fun p => (get_all_names p).contains spoken_lower)

/-- Python `text.split(":", 1)` given that `:` occurs: the part before
the first colon and the part after it. -/
def splitColon1 (text : Str) : Str × Str :=
  (text.takeWhile (fun c => c ≠ ':'), ((text.dropWhile (fun c => c ≠ ':')).drop 1))

/-- Regex `^escaped(name)\s+` on the lowered text: `name` must be a
prefix and be followed by at least one whitespace character; the match
end is `name.length` plus the greedy whitespace run. -/
def name_ws_match_end (text_lower name : Str) : Option Nat :=
  if name.isPrefixOf text_lower then
    let ws := (text_lower.drop name.length).takeWhile Char.isWhitespace
    if ws = [] then none else some (name.length + ws.length)
  else none

/-- `VoiceController._parse_command`.  Global phrases first (prefix or
exact match, first key wins); then the colon form (falling through when
the left side resolves to no project); then the name-at-start form over
projects in order and each project's names in order; else unroutable. -/
def parse_command (projects : List ProjectConfig) (text : Str) : ParsedCommand :=
  let text_lower := Py.strip (Py.lower text)
  match GLOBAL_COMMANDS.find? (fun p => p.isPrefixOf text_lower || text_lower = p) with
  | some p => { target := none, command := p, is_global := true }
  | none =>
    let colon_hit : Option ParsedCommand :=
      if text.contains ':' then
        let parts := splitColon1 text
        let target_phrase := Py.strip parts.1
        let command := Py.strip parts.2
        match find_project_by_voice projects target_phrase with
        | some project => some { target := some project.name, command := command, is_global := false }
        | none => none
      else none
    match colon_hit with
    | some pc => pc
    | none =>
      let hit : Option ParsedCommand :=
        projects.findSome? fun project =>
          (get_all_names project).findSome? fun name =>
            match name_ws_match_end text_lower name with
            | some e =>
                some { target := some project.name
                       command := Py.strip (text.drop e)
                       is_global := false }
            | none => none
      match hit with
      | some pc => pc
      | none => { target := none, command := text, is_global := false }

/-- `VoiceController._is_claude_ready`. -/
def is_claude_ready (output : Str) : Bool :=
  let lines := Py.splitNl (Py.strip output)
  if lines = [] then false
  else
    let last_line := Py.strip (lines.getLastD [])
    (chars ">").isSuffixOf last_line || Py.containsSub (chars "> ") last_line

/-- The delta computation of `_announce_completion`: text after the
first occurrence of the old snapshot inside the new one when the old
snapshot is non-empty and occurs, else the whole new snapshot.  (The
`idx >= 0` arm is kept although `find` cannot fail after the `in`
check.) -/
def completion_delta (last_output current_output : Str) : Str :=
  if last_output ≠ [] && Py.containsSub last_output current_output then
    match Py.findSub last_output current_output with
    | some idx => current_output.drop (idx + last_output.length)
    | none => current_output
  else current_output

/-- `VoiceController._announce_completion`, returning the spoken text
(the argument of `self.speak`) or `none` when nothing is announced. -/
def announce_completion (cfg : SummaryConfig)
    (project_name current_output last_output : Str) : Option Str :=
  if !cfg.announce_completion then none
  else
    let new_output := completion_delta last_output current_output
    let summary := Summarizer.summarize cfg new_output
    if 50 < summary.raw_length || summary.has_error || summary.has_question then
      some (project_name ++ chars ": " ++ summary.text)
    else none

/-- Python dict assignment `self._last_outputs[name] = v` on an
association list. -/
def setEntry (name val : Str) : List (Str × Str) → List (Str × Str)
  | [] => [(name, val)]
  | (k, w) :: rest =>
      if k = name then (name, val) :: rest else (k, w) :: setEntry name val rest

/-- Python `self._last_outputs.get(name, "")`. -/
def getEntry (name : Str) : List (Str × Str) → Str
  | [] => []
  | (k, w) :: rest => if k = name then w else getEntry name rest

/-- The per-session body of one `_monitor_outputs` pass, inside its
`try`/`except`: the read outcome is an `Except` (an exception anywhere
while handling the session is modelled as a failed read); on failure the
`except Exception: pass` arm leaves the snapshot map unchanged and emits
nothing. -/
def monitor_step (cfg : SummaryConfig) (snapshots : List (Str × Str))
    (name : Str) (read_result : Except Unit Str) :
    List (Str × Str) × Option Str :=
  match read_result with
  | .error _ => (snapshots, none)
  | .ok current_output =>
      let last_output := getEntry name snapshots
      if current_output ≠ last_output then
        let snapshots1 := setEntry name current_output snapshots
        if is_claude_ready current_output && !is_claude_ready last_output then
          (snapshots1, announce_completion cfg name current_output last_output)
        else (snapshots1, none)
      else (snapshots, none)

/-- One full pass of `_monitor_outputs` over the live sessions (in
iteration order), threading the snapshot map and collecting each
session's announcement outcome. -/
def monitor_pass (cfg : SummaryConfig) (snapshots : List (Str × Str)) :
    List (Str × Except Unit Str) → List (Str × Str) × List (Option Str)
  | [] => (snapshots, [])
  | (name, r) :: rest =>
      let step := monitor_step cfg snapshots name r
      let tail := monitor_pass cfg step.1 rest
      (tail.1, step.2 :: tail.2)

end Controller

/-! ## Helper lemmas -/

namespace Py

theorem splitNl_ne_nil (s : Str) : splitNl s ≠ [] := by
  induction s with
  | nil => simp [splitNl]
  | cons c cs ih =>
    rw [splitNl]
    split
    · simp
    · cases h : splitNl cs with
      | nil => simp
      | cons hd tl => simp

theorem isPrefixOf_iff_append (o l : Str) :
    o.isPrefixOf l = true ↔ ∃ t, l = o ++ t := by
  induction o generalizing l with
  | nil =>
    simp [List.isPrefixOf]
  | cons a as ih =>
    cases l with
    | nil =>
      simp [List.isPrefixOf]
    | cons b bs =>
      simp only [List.isPrefixOf, Bool.and_eq_true, beq_iff_eq, ih, List.cons_append]
      constructor
      · rintro ⟨rfl, t, rfl⟩
        exact ⟨t, rfl⟩
      · rintro ⟨t, ht⟩
        injection ht with h1 h2
        exact ⟨h1.symm, t, h2⟩

theorem findSub_some (o : Str) (n : Str) (i : Nat) (h : findSub o n = some i) :
    o.isPrefixOf (n.drop i) = true ∧ ∀ j < i, o.isPrefixOf (n.drop j) = false := by
  induction n generalizing i with
  | nil =>
    rw [findSub] at h
    split at h
    · rename_i hp
      cases h
      exact ⟨by simpa using hp, by omega⟩
    · cases h
  | cons c cs ih =>
    rw [findSub] at h
    split at h
    · rename_i hp
      cases h
      exact ⟨by simpa using hp, by omega⟩
    · rename_i hp
      obtain ⟨i', hi', rfl⟩ := Option.map_eq_some'.mp h
      obtain ⟨h1, h2⟩ := ih i' hi'
      refine ⟨h1, ?_⟩
      intro j hj
      cases j with
      | zero => simpa using Bool.eq_false_iff.mpr hp
      | succ j' => exact h2 j' (by omega)

theorem findSub_none (o : Str) (n : Str) (h : findSub o n = none) :
    ∀ j, o.isPrefixOf (n.drop j) = false := by
  induction n with
  | nil =>
    rw [findSub] at h
    split at h
    · cases h
    · rename_i hp
      intro j
      simpa using Bool.eq_false_iff.mpr hp
  | cons c cs ih =>
    rw [findSub] at h
    split at h
    · cases h
    · rename_i hp
      have hcs : findSub o cs = none := by
        cases hc : findSub o cs with
        | none => rfl
        | some k => rw [hc] at h; cases h
      intro j
      cases j with
      | zero => simpa using Bool.eq_false_iff.mpr hp
      | succ j' => exact ih hcs j'

theorem containsSub_iff (o n : Str) :
    containsSub o n = true ↔ ∃ i, findSub o n = some i := by
  simp [containsSub, Option.isSome_iff_exists]

theorem tokensByFuel_irrel (p : Char → Bool) :
    ∀ f1 f2 (s : Str), s.length < f1 → s.length < f2 →
      tokensByFuel p f1 s = tokensByFuel p f2 s := by
  intro f1
  induction f1 with
  | zero => intro f2 s h1 _; omega
  | succ f1 ih =>
    intro f2 s h1 h2
    cases f2 with
    | zero => omega
    | succ f2 =>
      cases s with
      | nil => rfl
      | cons c cs =>
        have hlen : cs.length < f1 ∧ cs.length < f2 := by
          simp only [List.length_cons] at h1 h2
          omega
        have hd : (cs.dropWhile p).length ≤ cs.length :=
          (List.dropWhile_sublist p).length_le
        simp only [tokensByFuel]
        split
        · rw [ih f2 (cs.dropWhile p) (by omega) (by omega)]
        · rw [ih f2 cs hlen.1 hlen.2]

theorem tokensBy_cons_pos (p : Char → Bool) (c : Char) (cs : Str) (h : p c = true) :
    tokensBy p (c :: cs) = (c :: cs.takeWhile p) :: tokensBy p (cs.dropWhile p) := by
  have hd : (cs.dropWhile p).length ≤ cs.length :=
    (List.dropWhile_sublist p).length_le
  show tokensByFuel p ((c :: cs).length + 1) (c :: cs) = _
  rw [List.length_cons, tokensByFuel, if_pos h]
  rw [tokensByFuel_irrel p (cs.length + 1) ((cs.dropWhile p).length + 1) _ (by omega) (by omega)]
  rfl

theorem tokensBy_cons_neg (p : Char → Bool) (c : Char) (cs : Str) (h : p c = false) :
    tokensBy p (c :: cs) = tokensBy p cs := by
  show tokensByFuel p ((c :: cs).length + 1) (c :: cs) = _
  rw [List.length_cons, tokensByFuel, if_neg (by simp [h])]
  rw [tokensByFuel_irrel p (cs.length + 1) (cs.length + 1) cs (by omega) (by omega)]
  rfl

theorem tokensBy_mem (p : Char → Bool) (s : Str) :
    ∀ w ∈ tokensBy p s, w ≠ [] ∧ w.all p = true := by
  rw [tokensBy]
  generalize s.length + 1 = fuel
  induction fuel generalizing s with
  | zero => simp [tokensByFuel]
  | succ fuel ih =>
    cases s with
    | nil => simp [tokensByFuel]
    | cons c cs =>
      rw [tokensByFuel]
      split
      · rename_i hp
        intro w hw
        rcases List.mem_cons.mp hw with rfl | hw'
        · refine ⟨by simp, ?_⟩
          simp only [List.all_cons, hp, Bool.true_and]
          exact List.all_eq_true.mpr fun x hx => List.mem_takeWhile_imp hx
        · exact ih _ w hw'
      · exact ih cs

theorem splitWs_mem (s : Str) :
    ∀ w ∈ splitWs s, w ≠ [] ∧ w.all (fun c => !c.isWhitespace) = true :=
  tokensBy_mem _ s

theorem tokensBy_word (p : Char → Bool) (w : Str) (hne : w ≠ [])
    (hw : w.all p = true) : tokensBy p w = [w] := by
  cases w with
  | nil => exact absurd rfl hne
  | cons c cs =>
    simp only [List.all_cons, Bool.and_eq_true] at hw
    rw [tokensBy_cons_pos p c cs hw.1]
    rw [List.takeWhile_eq_self_iff.mpr ?_, List.dropWhile_eq_nil_iff.mpr ?_]
    · rfl
    · intro x hx
      exact (List.all_eq_true.mp hw.2) x hx
    · intro x hx
      exact (List.all_eq_true.mp hw.2) x hx

theorem splitWs_word_sep (w t : Str) (hne : w ≠ [])
    (hw : w.all (fun c => !c.isWhitespace) = true) :
    splitWs (w ++ chars " " ++ t) = w :: splitWs t := by
  cases w with
  | nil => exact absurd rfl hne
  | cons c cs =>
    simp only [List.all_cons, Bool.and_eq_true] at hw
    have hcs : ∀ x ∈ cs, (!x.isWhitespace) = true := List.all_eq_true.mp hw.2
    have hrw : (c :: cs) ++ chars " " ++ t = c :: (cs ++ ' ' :: t) := by
      rw [List.cons_append, List.cons_append, List.append_assoc]
      rfl
    rw [hrw, splitWs, tokensBy_cons_pos _ _ _ hw.1]
    rw [List.takeWhile_append_of_pos hcs, List.dropWhile_append_of_pos hcs]
    rw [List.takeWhile_cons_of_neg (by decide), List.dropWhile_cons_of_neg (by decide)]
    rw [List.append_nil]
    rw [tokensBy_cons_neg _ _ _ (by decide)]
    rfl

theorem joinWith_cons_ne (sep w : Str) (X : List Str) (hX : X ≠ []) :
    joinWith sep (w :: X) = w ++ sep ++ joinWith sep X := by
  cases X with
  | nil => exact absurd rfl hX
  | cons x xs => rfl

theorem splitWs_joinWith (L : List Str)
    (hL : ∀ w ∈ L, w ≠ [] ∧ w.all (fun c => !c.isWhitespace) = true) :
    splitWs (joinWith (chars " ") L) = L := by
  induction L with
  | nil => rfl
  | cons w ws ih =>
    cases ws with
    | nil =>
      rw [joinWith]
      exact tokensBy_word _ w (hL w (by simp)).1 (hL w (by simp)).2
    | cons w' rest =>
      rw [joinWith_cons_ne _ _ _ (by simp)]
      rw [splitWs_word_sep w _ (hL w (by simp)).1 (hL w (by simp)).2]
      rw [ih (fun x hx => hL x (List.mem_cons_of_mem _ hx))]

theorem joinWith_append_last (sep d : Str) :
    ∀ (L : List Str) (hne : L ≠ []),
      joinWith sep L ++ d = joinWith sep (L.dropLast ++ [L.getLast hne ++ d]) := by
  intro L
  induction L with
  | nil => intro hne; exact absurd rfl hne
  | cons w ws ih =>
    intro hne
    cases ws with
    | nil =>
      simp only [List.dropLast_single, List.nil_append, List.getLast_singleton]
      rfl
    | cons w' rest =>
      rw [joinWith_cons_ne _ _ _ (by simp), List.append_assoc, List.append_assoc,
        ih (by simp)]
      have h1 : (w :: w' :: rest).dropLast ++ [(w :: w' :: rest).getLast hne ++ d] =
          w :: ((w' :: rest).dropLast ++ [(w' :: rest).getLast (by simp) ++ d]) := by
        simp [List.dropLast_cons₂, List.getLast_cons]
      rw [h1, joinWith_cons_ne _ _ _ (by simp), List.append_assoc]

end Py

namespace Summarizer

/-- With at least one word allowed, the text produced by
`_truncate_to_words` always splits into at most `m` words (on
truncation, the glued ellipsis leaves exactly `m`). -/
theorem splitWs_truncate_length (s : Str) (m : Nat) (hm : 1 ≤ m) :
    (Py.splitWs (truncate_to_words s m)).length ≤ m := by
  simp only [truncate_to_words]
  split
  · assumption
  · rename_i hgt
    push_neg at hgt
    set L := (Py.splitWs s).take m with hLdef
    have hLlen : L.length = m := by
      rw [hLdef, List.length_take]
      omega
    have hLne : L ≠ [] := by
      intro h
      rw [h] at hLlen
      simp at hLlen
      omega
    rw [Py.joinWith_append_last _ _ L hLne]
    rw [Py.splitWs_joinWith]
    · rw [List.length_append, List.length_dropLast, hLlen]
      simp only [List.length_singleton]
      omega
    · intro w hw
      rcases List.mem_append.mp hw with hw1 | hw2
      · exact Py.splitWs_mem s w (List.take_subset m _ (List.dropLast_subset L hw1))
      · have hw2' : w = L.getLast hLne ++ chars "..." := by simpa using hw2
        subst hw2'
        refine ⟨?_, ?_⟩
        · intro hc
          have h3 := congrArg List.length hc
          rw [List.length_append] at h3
          have h4 : (chars "...").length = 3 := rfl
          simp only [List.length_nil] at h3
          omega
        · rw [List.all_append]
          have hg := (Py.splitWs_mem s _ (List.take_subset m _ (List.getLast_mem hLne))).2
          rw [hg]
          decide

/-- `summarize` on a non-empty text with a strategy that is neither
`"full"` nor `"first_last"` produces the smart summary. -/
theorem summarize_text_smart (cfg : SummaryConfig) (text : Str) (hne : text ≠ [])
    (h1 : cfg.strategy ≠ chars "full") (h2 : cfg.strategy ≠ chars "first_last") :
    (summarize cfg text).text =
      smart_summary cfg text (has_error text) (has_question text) (is_complete text) := by
  simp only [summarize]
  rw [if_neg hne, if_neg h1, if_neg h2]

/-- `summarize` on a non-empty text with strategy `"first_last"`. -/
theorem summarize_text_first_last (cfg : SummaryConfig) (text : Str) (hne : text ≠ [])
    (h2 : cfg.strategy = chars "first_last") :
    (summarize cfg text).text = first_last_summary cfg text := by
  simp only [summarize]
  rw [if_neg hne, if_neg (by rw [h2]; decide), if_pos h2]

/-- `summarize` on a non-empty text with strategy `"full"`. -/
theorem summarize_text_full (cfg : SummaryConfig) (text : Str) (hne : text ≠ [])
    (h1 : cfg.strategy = chars "full") :
    (summarize cfg text).text = truncate_to_words text cfg.max_spoken_length := by
  simp only [summarize]
  rw [if_neg hne, if_pos h1]

/-- `_smart_summary` either falls back to `_first_last_summary` or ends
in a word truncation. -/
theorem smart_summary_cases (cfg : SummaryConfig) (text : Str) (he hq ic : Bool) :
    smart_summary cfg text he hq ic = first_last_summary cfg text ∨
      ∃ s, smart_summary cfg text he hq ic = truncate_to_words s cfg.max_spoken_length := by
  simp only [smart_summary]
  split
  · left; rfl
  · right; exact ⟨_, rfl⟩

/-- `_first_last_summary` either returns the non-blank lines joined
verbatim (when there are at most 4) or ends in a word truncation. -/
theorem first_last_summary_cases (cfg : SummaryConfig) (text : Str) :
    (first_last_summary cfg text = Py.joinWith (chars " ") (non_blank_lines text) ∧
       (non_blank_lines text).length ≤ 4) ∨
      ∃ s, first_last_summary cfg text = truncate_to_words s cfg.max_spoken_length := by
  simp only [first_last_summary]
  split
  · left; exact ⟨rfl, by assumption⟩
  · right; exact ⟨_, rfl⟩

end Summarizer

namespace Summarizer

theorem summarize_raw_length (cfg : SummaryConfig) (text : Str) :
    (summarize cfg text).raw_length = text.length := by
  rw [summarize]
  split
  · rename_i h
    simp [h]
  · rfl

end Summarizer

/-! ## Claims -/

/-- C1 (counterexample): the ready/busy predicate of `KittyWindow.is_busy`
and the readiness predicate of the Output Monitor's completion detection
(`_is_claude_ready`) are not one and the same function: on the text
`"$"`, `is_busy` classifies the session READY (its last line ends with
the `$` marker) while `_is_claude_ready` classifies it BUSY
(no `>` marker). -/
theorem ready_predicates_disagree_on_dollar :
    Kitty.is_busy_on (chars "$") = false ∧
      Controller.is_claude_ready (chars "$") = false := by
  decide

/-- C1 (amended): the two ready/busy predicates are distinct functions.
`KittyWindow.is_busy` classifies a text READY iff its stripped last line
ends with `>` or `$`; `_is_claude_ready` classifies it ready iff that
line ends with `>` or contains `"> "`.  They agree — both READY — on any
text whose stripped last line ends with the `>` prompt marker, but need
not agree otherwise (for example on `"$"`). -/
theorem ready_predicates_agree_on_prompt (text : Str)
    (h : (chars ">").isSuffixOf
        (Py.strip ((Py.splitNl (Py.strip text)).getLastD [])) = true) :
    Kitty.is_busy_on text = false ∧ Controller.is_claude_ready text = true := by
  rw [Kitty.is_busy_on, Controller.is_claude_ready]
  rw [if_neg (Py.splitNl_ne_nil _), if_neg (Py.splitNl_ne_nil _)]
  simp only [h, Bool.true_or, Bool.not_true, and_self]

/-- C1 (witness for the amended theorem at the text `"> "`). -/
theorem ready_predicates_agree_on_prompt_witness :
    Kitty.is_busy_on (chars "> ") = false ∧
      Controller.is_claude_ready (chars "> ") = true :=
  ready_predicates_agree_on_prompt (chars "> ") (by decide)

/-- C2 (counterexample): on the empty input, `summarize` does not return
a Summary with all flags false: its `is_complete` flag is `true`. -/
theorem summarize_empty_is_complete :
    (Summarizer.summarize SummaryConfig.default []).is_complete = true := by
  decide

/-- C2 (amended): for the empty input string (and any configuration),
`summarize` returns the canned Summary with text `"No output"`,
`has_error` and `has_question` false, `is_complete` TRUE, and
`raw_length` 0, with no pattern search performed (the early return). -/
theorem summarize_empty (cfg : SummaryConfig) :
    Summarizer.summarize cfg [] =
      { text := chars "No output"
        has_error := false
        has_question := false
        is_complete := true
        raw_length := 0 } := by
  rfl

/-- C10: for every input text and configuration (hence every strategy),
the Summary returned by `summarize` has `raw_length` equal to the
character length of the input text — downstream length gating always
sees the raw delta size, never the summary size. -/
theorem summarize_raw_length_eq (cfg : SummaryConfig) (text : Str) :
    (Summarizer.summarize cfg text).raw_length = text.length :=
  Summarizer.summarize_raw_length cfg text

/-- C5: with completion announcements enabled, `_announce_completion`
speaks (returns a message) if and only if the delta length exceeds 50
characters, or the summary flags an error, or the summary flags a
question; otherwise nothing is spoken for that session. -/
theorem announce_completion_iff (cfg : SummaryConfig)
    (name cur last : Str) (h : cfg.announce_completion = true) :
    (Controller.announce_completion cfg name cur last).isSome = true ↔
      (50 < (Controller.completion_delta last cur).length ∨
       (Summarizer.summarize cfg (Controller.completion_delta last cur)).has_error = true ∨
       (Summarizer.summarize cfg (Controller.completion_delta last cur)).has_question = true) := by
  rw [Controller.announce_completion, h]
  simp only [Bool.not_true, Bool.false_eq_true, if_false]
  rw [Summarizer.summarize_raw_length]
  split
  · rename_i hc
    simp only [Option.isSome_some, true_iff]
    simpa [Bool.or_eq_true, decide_eq_true_eq, or_assoc] using hc
  · rename_i hc
    simp only [Option.isSome_none, Bool.false_eq_true, false_iff]
    simpa [Bool.or_eq_true, decide_eq_true_eq, not_or, and_assoc] using hc

/-- C5 (witness): with the default configuration, a 51-character delta
from an empty old snapshot is announced. -/
theorem announce_completion_iff_witness :
    (Controller.announce_completion SummaryConfig.default (chars "p")
        (chars "aaaaaaaaaaaaaaaaaaaaaaaaaaaaaaaaaaaaaaaaaaaaaaaaaaa") []).isSome = true ↔
      (50 < (Controller.completion_delta []
          (chars "aaaaaaaaaaaaaaaaaaaaaaaaaaaaaaaaaaaaaaaaaaaaaaaaaaa")).length ∨
       (Summarizer.summarize SummaryConfig.default (Controller.completion_delta []
          (chars "aaaaaaaaaaaaaaaaaaaaaaaaaaaaaaaaaaaaaaaaaaaaaaaaaaa"))).has_error = true ∨
       (Summarizer.summarize SummaryConfig.default (Controller.completion_delta []
          (chars "aaaaaaaaaaaaaaaaaaaaaaaaaaaaaaaaaaaaaaaaaaaaaaaaaaa"))).has_question = true) :=
  announce_completion_iff SummaryConfig.default (chars "p")
    (chars "aaaaaaaaaaaaaaaaaaaaaaaaaaaaaaaaaaaaaaaaaaaaaaaaaaa") [] (by decide)

/-- C9: a failed read (the caught per-session exception) leaves the
snapshot map unchanged, produces no announcement for that session, and
the remaining sessions of the pass are still processed exactly as they
would have been; the pass is a total function, so the monitoring loop
never terminates because of the failure. -/
theorem monitor_pass_error_skip (cfg : SummaryConfig) (st : List (Str × Str))
    (n : Str) (pre post : List (Str × Except Unit Str)) :
    Controller.monitor_pass cfg st (pre ++ (n, Except.error ()) :: post) =
      ((Controller.monitor_pass cfg (Controller.monitor_pass cfg st pre).1 post).1,
       (Controller.monitor_pass cfg st pre).2 ++
         none :: (Controller.monitor_pass cfg (Controller.monitor_pass cfg st pre).1 post).2) := by
  induction pre generalizing st with
  | nil => simp [Controller.monitor_pass, Controller.monitor_step]
  | cons x pre ih =>
    obtain ⟨xn, xr⟩ := x
    simp only [List.cons_append, Controller.monitor_pass, List.append_eq]
    rw [ih]

/-- C4: the completion delta.  If the old snapshot `o` occurs as a
substring of the new snapshot `n`, the delta is the text of `n` after
that (first) occurrence — `n` decomposes as `p ++ o ++ delta` with `p`
shortest; otherwise the delta is the entire new snapshot.  In
particular, `old = "A\nB\n"` and `new = "A\nB\nC\n> "` yield delta
`"C\n> "`. -/
theorem completion_delta_spec :
    (∀ o n : Str, Py.containsSub o n = true →
        ∃ p, n = p ++ o ++ Controller.completion_delta o n ∧
          ∀ q r, n = q ++ o ++ r → p.length ≤ q.length) ∧
    (∀ o n : Str, Py.containsSub o n = false →
        Controller.completion_delta o n = n) ∧
    Controller.completion_delta (chars "A\nB\n") (chars "A\nB\nC\n> ") = chars "C\n> " := by
  refine ⟨?_, ?_, by decide⟩
  · intro o n hin
    by_cases ho : o = []
    · subst ho
      have hd : Controller.completion_delta [] n = n := by
        rw [Controller.completion_delta, if_neg]
        simp
      exact ⟨[], by simp [hd], fun q r _ => by simp⟩
    · obtain ⟨i, hi⟩ := (Py.containsSub_iff o n).mp hin
      have hdelta : Controller.completion_delta o n = n.drop (i + o.length) := by
        rw [Controller.completion_delta, if_pos (by simp [ho, hin]), hi]
      obtain ⟨hpref, hmin⟩ := Py.findSub_some o n i hi
      obtain ⟨s, hs⟩ := (Py.isPrefixOf_iff_append o (n.drop i)).mp hpref
      have hds : Controller.completion_delta o n = s := by
        rw [hdelta, ← List.drop_drop, hs, List.drop_left]
      refine ⟨n.take i, ?_, ?_⟩
      · rw [hds, List.append_assoc, ← hs, List.take_append_drop]
      · intro q r hqr
        have hq : o.isPrefixOf (n.drop q.length) = true := by
          rw [Py.isPrefixOf_iff_append]
          exact ⟨r, by rw [hqr, List.append_assoc, List.drop_left]⟩
        have hle : i ≤ q.length := by
          by_contra hlt
          push_neg at hlt
          rw [hmin q.length hlt] at hq
          cases hq
        calc (n.take i).length ≤ i := by rw [List.length_take]; exact Nat.min_le_left _ _
          _ ≤ q.length := hle
  · intro o n hin
    rw [Controller.completion_delta, if_neg]
    simp [hin]

/-- C4 (witness): the decomposition at the concrete completion pair
`old = "A\nB\n"`, `new = "A\nB\nC\n> "`. -/
theorem completion_delta_spec_witness :
    ∃ p, chars "A\nB\nC\n> " =
        p ++ chars "A\nB\n" ++
          Controller.completion_delta (chars "A\nB\n") (chars "A\nB\nC\n> ") ∧
      ∀ q r, chars "A\nB\nC\n> " = q ++ chars "A\nB\n" ++ r → p.length ≤ q.length :=
  completion_delta_spec.1 (chars "A\nB\n") (chars "A\nB\nC\n> ") (by decide)

/-- C6: an utterance whose lowercased, trimmed form exactly equals one of
the closed global phrases is parsed as a global command with that phrase
as the action — for any project configuration, so such an utterance is
never routed to a window (the global table is consulted before the colon
and name-at-start forms). -/
theorem parse_command_global (projects : List Controller.ProjectConfig)
    (text p : Str) (hmem : p ∈ Controller.GLOBAL_COMMANDS)
    (h : Py.strip (Py.lower text) = p) :
    Controller.parse_command projects text =
      { target := none, command := p, is_global := true } := by
  rw [Controller.parse_command, h]
  fin_cases hmem <;> rfl

/-- C6 (witness): the utterance `"status"` with an empty project list. -/
theorem parse_command_global_witness :
    Controller.parse_command [] (chars "status") =
      { target := none, command := chars "status", is_global := true } :=
  parse_command_global [] (chars "status") (chars "status") (by decide) (by decide)

/-- C3 (counterexample): with `strategy = "smart"` and
`max_spoken_length = 2`, the input `"alpha beta gamma"` extracts no
fragments, falls back to `_first_last_summary`, and — having only one
non-blank line — is returned verbatim: 3 words with no ellipsis marker,
exceeding the configured maximum of 2. -/
theorem smart_summary_exceeds_cap :
    (Summarizer.summarize ⟨2, chars "smart", true, true, true⟩
        (chars "alpha beta gamma")).text = chars "alpha beta gamma" ∧
      (Py.splitWs (chars "alpha beta gamma")).length = 3 := by
  decide

/-- C3 (amended): for every non-empty input under `strategy = "smart"`
(with a positive word cap), the spoken text is word-truncated to at most
`max_spoken_length` words — including the fallback to `first_last` when
fewer than 2 fragments are extracted — EXCEPT when that fallback hits a
text with at most 4 non-blank lines, in which case the stripped
non-blank lines are returned space-joined verbatim, which may exceed the
cap. -/
theorem smart_summary_word_cap (cfg : SummaryConfig) (text : Str)
    (hstrat : cfg.strategy = chars "smart") (hne : text ≠ [])
    (hm : 1 ≤ cfg.max_spoken_length) :
    (Py.splitWs (Summarizer.summarize cfg text).text).length ≤ cfg.max_spoken_length ∨
      (Summarizer.summarize cfg text).text =
        Py.joinWith (chars " ") (Summarizer.non_blank_lines text) := by
  rw [Summarizer.summarize_text_smart cfg text hne (by rw [hstrat]; decide)
    (by rw [hstrat]; decide)]
  rcases Summarizer.smart_summary_cases cfg text (Summarizer.has_error text)
      (Summarizer.has_question text) (Summarizer.is_complete text) with hc | ⟨s, hs⟩
  · rw [hc]
    rcases Summarizer.first_last_summary_cases cfg text with ⟨hv, _⟩ | ⟨s, hs⟩
    · right; exact hv
    · left; rw [hs]; exact Summarizer.splitWs_truncate_length s _ hm
  · left; rw [hs]; exact Summarizer.splitWs_truncate_length s _ hm

/-- C3 (witness for the amended theorem, at the counterexample's input:
the verbatim-fallback disjunct holds there). -/
theorem smart_summary_word_cap_witness :
    (Py.splitWs (Summarizer.summarize ⟨2, chars "smart", true, true, true⟩
          (chars "alpha beta gamma")).text).length ≤ 2 ∨
      (Summarizer.summarize ⟨2, chars "smart", true, true, true⟩
          (chars "alpha beta gamma")).text =
        Py.joinWith (chars " ") (Summarizer.non_blank_lines (chars "alpha beta gamma")) :=
  smart_summary_word_cap ⟨2, chars "smart", true, true, true⟩
    (chars "alpha beta gamma") rfl (by decide) (by decide)

/-- C7 (counterexample): the empty input has at most 4 non-blank lines,
yet `summarize` with `strategy = "first_last"` returns the canned
`"No output"` Summary, not the (empty) space-join of its non-blank
lines. -/
theorem first_last_empty_not_verbatim :
    (Summarizer.summarize ⟨150, chars "first_last", true, true, true⟩ []).text =
        chars "No output" ∧
      chars "No output" ≠
        Py.joinWith (chars " ") (Summarizer.non_blank_lines []) := by
  decide

/-- C7 (amended): for every NON-EMPTY input text with at most 4
non-blank lines, `summarize` with `strategy = "first_last"` returns
exactly those (stripped) lines space-joined, with no "more lines" marker
inserted and no word truncation applied; the empty input instead yields
the canned `"No output"` summary. -/
theorem first_last_verbatim (cfg : SummaryConfig) (text : Str)
    (hstrat : cfg.strategy = chars "first_last") (hne : text ≠ [])
    (hlines : (Summarizer.non_blank_lines text).length ≤ 4) :
    (Summarizer.summarize cfg text).text =
      Py.joinWith (chars " ") (Summarizer.non_blank_lines text) := by
  rw [Summarizer.summarize_text_first_last cfg text hne hstrat]
  simp only [Summarizer.first_last_summary]
  rw [if_pos hlines]

/-- C7 (witness): the two-line text `"a\nb"` under `first_last`. -/
theorem first_last_verbatim_witness :
    (Summarizer.summarize ⟨150, chars "first_last", true, true, true⟩
        (chars "a\nb")).text =
      Py.joinWith (chars " ") (Summarizer.non_blank_lines (chars "a\nb")) :=
  first_last_verbatim ⟨150, chars "first_last", true, true, true⟩ (chars "a\nb")
    rfl (by decide) (by decide)

/-- C8: `summarize` with `strategy = "full"` is idempotent once the text
is at or below the word cap: for every non-empty text with at most
`max_spoken_length` words, the returned summary text equals the input
text, and applying `summarize` again to that output leaves it
unchanged. -/
theorem summarize_full_idempotent (cfg : SummaryConfig) (text : Str)
    (hstrat : cfg.strategy = chars "full") (hne : text ≠ [])
    (hlen : (Py.splitWs text).length ≤ cfg.max_spoken_length) :
    (Summarizer.summarize cfg text).text = text ∧
      (Summarizer.summarize cfg ((Summarizer.summarize cfg text).text)).text =
        (Summarizer.summarize cfg text).text := by
  have h1 : (Summarizer.summarize cfg text).text = text := by
    rw [Summarizer.summarize_text_full cfg text hne hstrat]
    simp only [Summarizer.truncate_to_words]
    rw [if_pos hlen]
  refine ⟨h1, ?_⟩
  rw [h1]
  exact h1

/-- C8 (witness): the two-word text `"hello world"` under `full` with
the default cap of 150. -/
theorem summarize_full_idempotent_witness :
    (Summarizer.summarize ⟨150, chars "full", true, true, true⟩
          (chars "hello world")).text = chars "hello world" ∧
      (Summarizer.summarize ⟨150, chars "full", true, true, true⟩
            ((Summarizer.summarize ⟨150, chars "full", true, true, true⟩
                (chars "hello world")).text)).text =
        (Summarizer.summarize ⟨150, chars "full", true, true, true⟩
            (chars "hello world")).text :=
  summarize_full_idempotent ⟨150, chars "full", true, true, true⟩
    (chars "hello world") rfl (by decide) (by decide)
